import Mathlib

/-!
Verification of the query / sort / search pipeline of
`server/controllers/LibraryController.js` (audiobookshelf).

Shallow embedding conventions used throughout this file:

* JavaScript numbers that arise in the pipeline are decimal literals parsed
  by `parseFloat` (series sequence tokens) or integers (timestamps, counts).
  They are modelled as exact scaled decimals (`Dec`, value `mant / 10 ^ scale`)
  resp. `Int`.  All concrete values exercised by the pipeline are exactly
  representable in double precision, so `+ 1` and `==` on them coincide with
  the exact arithmetic used here.
* JavaScript strings are Lean `String`s; all character-level work is done on
  `String.data` so every definition reduces in the kernel.
* Fallible JavaScript code (property access on `undefined`/`null`, which
  throws a `TypeError`) is modelled with `Except String`.
* Code of this repository that is not under `src/` (the vendored
  `libs/fastSort` sort library, `Intl.Collator`, and the media-object methods
  `getSeries` / `getSeriesSortTitle` / `searchQuery`) is modelled from the
  spec; every such definition carries a doc comment starting with
  `Modelled from the spec:`.
-/

/-! ## Digits and decimal values -/

/-- Numeric value of a list of decimal digit characters (most significant
first), as read by `parseFloat` on the integer resp. fraction part. -/
def natOfDigits (cs : List Char) : Nat :=
  cs.foldl (fun acc c => acc * 10 + (c.toNat - '0'.toNat)) 0

/-- An exact scaled decimal: the value `mant / 10 ^ scale`.  This is the
shallow embedding of the JavaScript number produced by `parseFloat` on a
sequence token (all such tokens are plain decimal literals, hence
non-negative). -/
structure Dec where
  mant : Nat
  scale : Nat
deriving DecidableEq

/-- JavaScript `==` between two parsed numbers: exact equality of values,
`a.mant / 10 ^ a.scale = b.mant / 10 ^ b.scale` by cross-multiplication. -/
def Dec.valEq (a b : Dec) : Bool :=
  a.mant * 10 ^ b.scale == b.mant * 10 ^ a.scale

/-- JavaScript `x + 1` on a parsed number. -/
def Dec.add1 (a : Dec) : Dec :=
  ⟨a.mant + 10 ^ a.scale, a.scale⟩

/-- The value is an integer (its fraction part is zero). -/
def Dec.isInt (a : Dec) : Bool :=
  a.mant % 10 ^ a.scale == 0

/-- Strip trailing zero digits of the fraction part:
`(m, s)` with `s` fraction digits becomes the canonical pair denoting the
same value.  This mirrors the canonical (shortest) form JavaScript uses when
converting a number back to a string. -/
def Dec.strip : Nat → Nat → Nat × Nat
  | m, 0 => (m, 0)
  | m, s + 1 => if m % 10 == 0 then Dec.strip (m / 10) s else (m, s + 1)

/-- Left-pad a digit list with `'0'` up to length `k`. -/
def padLeftZeros (k : Nat) (cs : List Char) : List Char :=
  List.replicate (k - cs.length) '0' ++ cs

/-- JavaScript string conversion of a parsed (non-negative) number:
canonical decimal form, e.g. `1.5 ↦ "1.5"`, `3 ↦ "3"`, `0.5 ↦ "0.5"`. -/
def Dec.render (a : Dec) : List Char :=
  match Dec.strip a.mant a.scale with
  | (m, 0) => Nat.toDigits 10 m
  | (m, k) =>
    Nat.toDigits 10 (m / 10 ^ k) ++ '.' :: padLeftZeros k (Nat.toDigits 10 (m % 10 ^ k))

/-! ## Character-list utilities (kernel-reducible replacements for the
string functions the source uses) -/

/-- `String.prototype.split(c)` on a character separator, at the character
list level: `"a.b" ↦ [['a'], ['b']]`, `"" ↦ [[]]`. -/
def splitOnChar (c : Char) (cs : List Char) : List (List Char) :=
  match cs with
  | [] => [[]]
  | x :: t =>
    if x = c then [] :: splitOnChar c t
    else
      match splitOnChar c t with
      | [] => [[x]]
      | h :: r => (x :: h) :: r

/-- `String.prototype.includes(needle)` at the character list level. -/
def containsSub (needle hay : List Char) : Bool :=
  match hay with
  | [] => needle.isEmpty
  | _ :: t => needle.isPrefixOf hay || containsSub needle t

/-! ## Sequence range compactor
(`seriesSequenceList` reducer, `LibraryController.getLibraryItems`,
source lines 374–391) -/

/-- The regex `/^(\d+|\d+\.\d*|\d*\.\d+)$/` applied to a sequence token:
either all digits (at least one), or exactly one decimal point with only
digits around it and a digit on at least one side. `splitOnChar '.'`
yields one part per alternative-free segment: one part means no point
(first alternative), two parts mean exactly one point (second alternative
`\d+\.\d*` when the left part is non-empty, third alternative `\d*\.\d+`
when the right part is non-empty). -/
def isSeqNumber (s : String) : Bool :=
  match splitOnChar '.' s.data with
  | [ds] => !ds.isEmpty && ds.all (·.isDigit)
  | [as, bs] =>
    (!as.isEmpty && as.all (·.isDigit) && bs.all (·.isDigit)) ||
    (as.all (·.isDigit) && !bs.isEmpty && bs.all (·.isDigit))
  | _ => false

/-- `parseFloat` on a token accepted by `isSeqNumber`: integer digits before
the first point, fraction digits after it. -/
def parseSeqToken (s : String) : Dec :=
  match s.data.span (· ≠ '.') with
  | (intDs, rest) =>
    let fracDs := rest.drop 1
    ⟨natOfDigits intDs * 10 ^ fracDs.length + natOfDigits fracDs, fracDs.length⟩

/-- A sequence value as stored in a range: the parsed number when the token
was numeric, otherwise the raw token string. -/
inductive SeqValue where
  | num (d : Dec)
  | str (s : String)
deriving DecidableEq

/-- JavaScript `==` between two stored endpoints (`r.start == r.end`).
Both endpoints of a reachable range always have the same shape (a range is
created with `start = end` from one token, and extension requires
`isNumber`), so only the homogeneous cases matter; JavaScript's
number-vs-string coercion case is unreachable here. -/
def SeqValue.looseEq : SeqValue → SeqValue → Bool
  | .num a, .num b => Dec.valEq a b
  | .str a, .str b => a == b
  | _, _ => false

/-- `(lastRange.end + 1) == currentSequence`.  The source evaluates this only
under `isNumber && lastRange.isNumber`, so both sides are numbers there; the
mixed cases are unreachable and modelled as `false`. -/
def seqSucc : SeqValue → SeqValue → Bool
  | .num e, .num c => Dec.valEq (Dec.add1 e) c
  | _, _ => false

/-- One range accumulator entry `{start, end, isNumber}` (the source's `end`
field is called `stop` here because `end` is a Lean keyword). -/
structure SeqRange where
  start : SeqValue
  stop : SeqValue
  isNumber : Bool
deriving DecidableEq

/-- One step of the reducer over the ascending token list (source lines
376–389): parse the token, and either extend the last open range (when the
token is numeric, the last range is numeric, and the value is the range
end plus one) or push a fresh single-token range. -/
def seqReduceStep (ranges : List SeqRange) (tok : String) : List SeqRange :=
  let isNum := isSeqNumber tok
  let cur : SeqValue := if isNum then .num (parseSeqToken tok) else .str tok
  match ranges.getLast? with
  | some last =>
    if isNum && last.isNumber && seqSucc last.stop cur then
      ranges.dropLast ++ [{ last with stop := cur }]
    else
      ranges ++ [⟨cur, cur, isNum⟩]
  | none => ranges ++ [⟨cur, cur, isNum⟩]

/-- Render one stored value back to a string (template literal coercion). -/
def SeqValue.render : SeqValue → String
  | .num d => String.mk (Dec.render d)
  | .str s => s

/-- Render one closed range: just the start when `start == end`, otherwise
`"start-end"` (source line 390). -/
def renderSeqRange (r : SeqRange) : String :=
  if SeqValue.looseEq r.start r.stop then r.start.render
  else r.start.render ++ "-" ++ r.stop.render

/-- The whole compaction of an ascending token list (source lines 375–391):
reduce to ranges, render each, join with `", "`. -/
def compactSeqList (tokens : List String) : String :=
  String.intercalate ", " ((tokens.foldl seqReduceStep []).map renderSeqRange)

/-- The spec's wording of the numeric-token pattern, stated independently:
"one or more digits, optionally followed by a decimal point and digits; or
a decimal point with digits before and/or after". -/
def specNumericPattern (s : String) : Bool :=
  match splitOnChar '.' s.data with
  | [ds] => !ds.isEmpty && ds.all (·.isDigit)
  | [as, bs] => as.all (·.isDigit) && bs.all (·.isDigit) && (!as.isEmpty || !bs.isEmpty)
  | _ => false

/-! ## JavaScript object values and dotted-path resolution
(`sortKey.split('.').reduce((a, b) => a[b], li)`, source line 329) -/

/-- A JavaScript value as seen by the pipeline: `undefined`, `null`, a
number (the fields the sort touches are integers), a string, an
insertion-ordered object, or an array. -/
inductive JsVal where
  | undefined
  | null
  | num (n : Int)
  | str (s : String)
  | obj (fields : List (String × JsVal))
  | arr (elems : List JsVal)
deriving Inhabited

/-- JavaScript property access `a[b]`: throws a `TypeError` when the
receiver is `undefined` or `null`; on an object it returns the property or
`undefined`; on an array it returns the indexed element, the length, or
`undefined`; on a primitive it returns `undefined` (none of the pipeline's
paths name primitive wrapper properties). -/
def JsVal.get : JsVal → String → Except String JsVal
  | .undefined, _ => .error "TypeError"
  | .null, _ => .error "TypeError"
  | .obj fs, k => .ok ((fs.lookup k).getD .undefined)
  | .arr xs, k =>
    if k = "length" then .ok (.num xs.length)
    else
      match k.toNat? with
      | some i => .ok (xs.getD i .undefined)
      | none => .ok .undefined
  | .num _, _ => .ok .undefined
  | .str _, _ => .ok .undefined

/-- `keys.reduce((a, b) => a[b], v)`: resolve a chain of property accesses,
propagating the first thrown `TypeError`. -/
def resolveKeys (v : JsVal) (ks : List String) : Except String JsVal :=
  match ks with
  | [] => .ok v
  | k :: rest =>
    match v.get k with
    | .ok w => resolveKeys w rest
    | .error e => .error e

/-- `path.split('.')` as a list of key strings. -/
def jsSplitDots (path : String) : List String :=
  (splitOnChar '.' path.data).map String.mk

/-- The source's dotted-path sort-key resolution
`sortKey.split('.').reduce((a, b) => a[b], li)` (source line 329). -/
def resolvePath (v : JsVal) (path : String) : Except String JsVal :=
  resolveKeys v (jsSplitDots path)

/-! ## Natural comparator
Modelled from the spec (§4.1): the comparer is
`new Intl.Collator(undefined, { numeric: true, sensitivity: 'base' }).compare`
and the sort library is the vendored `libs/fastSort`, neither of which is
under `src/`. -/

/-- One unit of natural comparison: a maximal digit run (compared by value)
or a single case-folded character code. -/
inductive NatTok where
  | digits (n : Nat)
  | ch (c : Nat)
deriving DecidableEq

/-- Tokenize a character list for natural comparison, accumulating the value
of the current digit run. -/
def natTokensAux : Option Nat → List Char → List NatTok
  | some n, [] => [.digits n]
  | none, [] => []
  | acc, c :: cs =>
    if c.isDigit then
      natTokensAux (some ((acc.getD 0) * 10 + (c.toNat - '0'.toNat))) cs
    else
      match acc with
      | some n => .digits n :: .ch c.toLower.toNat :: natTokensAux none cs
      | none => .ch c.toLower.toNat :: natTokensAux none cs

/-- Modelled from the spec: the comparison key of a string under the
locale-aware, case-insensitive, numeric-substring-aware collator. -/
def natTokens (s : String) : List NatTok :=
  natTokensAux none s.data

/-- Compare two comparison units: digit runs by numeric value, characters by
case-folded code; a digit run sorts before a character. -/
def natTokCmp : NatTok → NatTok → Ordering
  | .digits a, .digits b => compare a b
  | .digits _, .ch _ => .lt
  | .ch _, .digits _ => .gt
  | .ch a, .ch b => compare a b

/-- Lexicographic comparison of unit lists (the shorter list sorts first on
a tie). -/
def natTokListCmp : List NatTok → List NatTok → Ordering
  | [], [] => .eq
  | [], _ :: _ => .lt
  | _ :: _, [] => .gt
  | a :: as, b :: bs => (natTokCmp a b).then (natTokListCmp as bs)

/-- Modelled from the spec (§4.1): the natural comparator on strings —
case-insensitive, with embedded numbers compared by value. -/
def natCompare (a b : String) : Ordering :=
  natTokListCmp (natTokens a) (natTokens b)

/-- Decimal string of an integer (JavaScript number-to-string coercion for
the integer-valued keys the sort touches). -/
def intDigits (n : Int) : String :=
  match n with
  | .ofNat m => String.mk (Nat.toDigits 10 m)
  | .negSucc m => String.mk ('-' :: Nat.toDigits 10 (m + 1))

/-- Modelled from the spec (§4.2 step 3): the string a resolved sort key is
compared as.  Missing/`undefined` (and `null`) resolved values rank as the
empty string; numbers are coerced to their decimal string (the collator's
`numeric: true` then compares them by value); non-primitive keys do not
occur as sort keys in the pipeline and rank as the empty string. -/
def sortKeyString : JsVal → String
  | .undefined => ""
  | .null => ""
  | .num n => intDigits n
  | .str s => s
  | .obj _ => ""
  | .arr _ => ""

/-! ## Library items as the sort pipeline sees them -/

/-- One series membership of a book (`media.metadata.series[i]`).
`sortTitle` is the value of `getSeriesSortTitle` for this membership
(modelled from the spec: "the sort-friendly title of the item's primary
series" — the method itself lives outside `src/`). -/
structure SeriesRef where
  id : String
  name : String
  sequence : Option String
  sortTitle : String
deriving DecidableEq

/-- `media.metadata` of a book.  `titleNoArticle` is the source's
`titleIgnorePrefix` getter (the article-stripped title). -/
structure BookMetadata where
  title : String
  titleNoArticle : String
  authorName : String
  series : List SeriesRef
deriving DecidableEq

/-- The `media` payload. -/
structure MediaObj where
  metadata : BookMetadata
deriving DecidableEq

/-- The collapsed-series view attached to a row by the collapsing
collaborator.  `nameNoArticle` is the source's `nameIgnorePrefix`. -/
structure CollapsedSeriesObj where
  id : String
  name : String
  nameNoArticle : String
deriving DecidableEq

/-- A library item as the sort pipeline sees it. -/
structure LibraryItemObj where
  id : String
  media : MediaObj
  collapsedSeries : Option CollapsedSeriesObj
  addedAt : Int
deriving DecidableEq

/-- The JavaScript object graph of a series membership, for dotted-path
resolution.  The field key `sortTitle` stands for the modelled
sort-friendly title. -/
def SeriesRef.toJs (s : SeriesRef) : JsVal :=
  .obj [("id", .str s.id), ("name", .str s.name),
        ("sequence", match s.sequence with | some q => .str q | none => .null),
        ("sortTitle", .str s.sortTitle)]

/-- The JavaScript object graph of a library item, for dotted-path
resolution (`titleIgnorePrefix` / `nameIgnorePrefix` are the source's
getter names for the article-stripped fields). -/
def LibraryItemObj.toJs (li : LibraryItemObj) : JsVal :=
  .obj [("id", .str li.id),
        ("media", .obj [("metadata", .obj
          [("title", .str li.media.metadata.title),
           ("titleIgnorePrefix", .str li.media.metadata.titleNoArticle),
           ("authorName", .str li.media.metadata.authorName),
           ("series", .arr (li.media.metadata.series.map SeriesRef.toJs))])]),
        ("collapsedSeries", match li.collapsedSeries with
          | some cs => .obj [("id", .str cs.id), ("name", .str cs.name),
                             ("nameIgnorePrefix", .str cs.nameNoArticle)]
          | none => .undefined),
        ("addedAt", .num li.addedAt)]

/-- Dotted-path key extraction on an item as used inside a sort comparator.
The thrown `TypeError` of an access on `undefined`/`null` (documented by
`resolveKeys`) is collapsed to `undefined` here, because a comparator in
this model is a total function; no sort field exercised by the claims hits
that case. -/
def resolveItemKey (li : LibraryItemObj) (path : String) : JsVal :=
  match resolvePath li.toJs path with
  | .ok v => v
  | .error _ => .undefined

/-! ## Sort key resolver (Step 3 of `getLibraryItems`, source lines 273–350) -/

/-- The request context the sort-chain construction branches on. -/
structure SortCtx where
  filterSeries : Option String
  sortBy : Option String
  sortDesc : Bool
  collapseseries : Bool
  mediaType : String
deriving DecidableEq

/-- One comparator-chain entry: a direction flag and a key extractor
(the source's `{ asc: fn }` / `{ desc: fn }` objects). -/
structure SortEntry where
  desc : Bool
  key : LibraryItemObj → JsVal

/-- `li.media.metadata.getSeries(filterSeries).sequence`.  Modelled from the
spec: `getSeries` (not under `src/`) selects the item's membership in the
named series; its sequence token is the key.  When the item is not in the
series the source would throw on the `.sequence` access; the claims never
exercise that case and it is collapsed to `undefined` here. -/
def seqOfSeries (li : LibraryItemObj) (seriesName : String) : JsVal :=
  match li.media.metadata.series.find? (fun s => s.name == seriesName) with
  | some s =>
    match s.sequence with
    | some q => .str q
    | none => .null
  | none => .undefined

/-- JavaScript `a || b` on strings: `b` when `a` is missing or empty. -/
def strOr (a : Option String) (b : String) : String :=
  match a with
  | some s => if s = "" then b else s
  | none => b

/-- The title fallback key on the series page (source lines 281–287):
`li.collapsedSeries?.name || li.media.metadata.title`, article-aware. -/
def fallbackTitleKey (noArt : Bool) (li : LibraryItemObj) : JsVal :=
  if noArt then
    .str (strOr (li.collapsedSeries.map (fun cs => cs.nameNoArticle))
      li.media.metadata.titleNoArticle)
  else
    .str (strOr (li.collapsedSeries.map (fun cs => cs.name)) li.media.metadata.title)

/-- The collapsed-rows-last tie-break (source lines 303–315): the collapsed
series name (article-aware) for collapsed rows, `''` for plain rows. -/
def collapsedPreKey (noArt : Bool) (li : LibraryItemObj) : JsVal :=
  match li.collapsedSeries with
  | some cs => .str (if noArt then cs.nameNoArticle else cs.name)
  | none => .str ""

/-- The primary sort key (source lines 319–331). -/
def primarySortKey (mediaIsBook sortBySeq sortByTitle noArt : Bool)
    (filterSeries : Option String) (sortKey : String) (li : LibraryItemObj) : JsVal :=
  if mediaIsBook && sortBySeq then
    seqOfSeries li (filterSeries.getD "")
  else
    match li.collapsedSeries, mediaIsBook && sortByTitle with
    | some cs, true => .str (if noArt then cs.nameNoArticle else cs.name)
    | _, _ => resolveItemKey li sortKey

/-- The author secondary tie-break (source lines 335–345): the sort-friendly
title of the item's first series, or `null` when it has none. -/
def authorSecondaryKey (li : LibraryItemObj) : JsVal :=
  match li.media.metadata.series with
  | s :: _ => .str s.sortTitle
  | [] => .null

/-- Build the ordered comparator chain of Step 3 (source lines 273–346) from
the server setting `sortingIgnorePrefix` (`noArt`) and the request context. -/
def buildSortChain (noArt : Bool) (ctx : SortCtx) : List SortEntry :=
  let mediaIsBook := ctx.mediaType == "book"
  let seriesPart : List SortEntry :=
    match ctx.filterSeries, ctx.sortBy with
    | some fs, none =>
      [{ desc := false, key := fun li => seqOfSeries li fs },
       { desc := false, key := fallbackTitleKey noArt }]
    | _, _ => []
  let sortByPart : List SortEntry :=
    match ctx.sortBy with
    | none => []
    | some sb =>
      let sortByTitle := sb == "media.metadata.title"
      let sortKey := if sortByTitle && noArt then sb ++ "IgnorePrefix" else sb
      let sortBySeq := ctx.filterSeries.isSome && sortKey == "sequence"
      let collapsePre : List SortEntry :=
        if ctx.collapseseries && !(sortByTitle || sortBySeq) then
          [{ desc := false, key := collapsedPreKey noArt }]
        else []
      let primary : SortEntry :=
        { desc := ctx.sortDesc,
          key := primarySortKey mediaIsBook sortBySeq sortByTitle noArt ctx.filterSeries sortKey }
      let authorSec : List SortEntry :=
        if mediaIsBook && containsSub "author".data sb.data then
          [{ desc := false, key := authorSecondaryKey }]
        else []
      collapsePre ++ [primary] ++ authorSec
  seriesPart ++ sortByPart

/-- Compare two items under one chain entry: natural comparison of the
extracted keys' comparison strings, swapped for a `desc` entry. -/
def entryCmp (e : SortEntry) (a b : LibraryItemObj) : Ordering :=
  let o := natCompare (sortKeyString (e.key a)) (sortKeyString (e.key b))
  if e.desc then o.swap else o

/-- The composite lexicographic comparator of a chain: the first entry that
distinguishes the two items wins. -/
def chainCmp (chain : List SortEntry) (a b : LibraryItemObj) : Ordering :=
  match chain with
  | [] => .eq
  | e :: es => (entryCmp e a b).then (chainCmp es a b)

/-- The boolean "not after" relation induced by a chain, as handed to the
sort. -/
def chainLe (chain : List SortEntry) (a b : LibraryItemObj) : Bool :=
  !(chainCmp chain a b == .gt)

/-- Modelled from the spec (§4.2 Output): `naturalSort(items).by(sortArray)`
applies the vendored `libs/fastSort` sort (not under `src/`), a stable sort
by the composite comparator; the source skips the call entirely when the
chain is empty (`if (sortArray.length)`, source lines 348–350). -/
def applySortChain (chain : List SortEntry) (items : List LibraryItemObj) :
    List LibraryItemObj :=
  match chain with
  | [] => items
  | _ => items.mergeSort (chainLe chain)

/-! ## Paginator (Step 3.5 of `getLibraryItems`, source lines 352–356) -/

/-- `if (payload.limit) { ... slice(startIndex, startIndex + limit) }`:
a zero limit disables pagination, otherwise the result is the slice
`[page * limit, page * limit + limit)`.  `limit` and `page` are the
non-negative integers the query parser produces for the requests the
claims cover. -/
def paginate {α : Type} (limit page : Nat) (l : List α) : List α :=
  if limit = 0 then l
  else (l.drop (page * limit)).take limit

/-! ## Collapse guard (Step 2 of `getLibraryItems`, source lines 254–271) -/

/-- `collapsedItems.length == 1 && collapsedItems[0].collapsedSeries`:
the collaborator produced exactly one row and it is a collapsed-series
row. -/
def isSingleCollapsedRow (collapsed : List LibraryItemObj) : Bool :=
  match collapsed with
  | [li] => li.collapsedSeries.isSome
  | _ => false

/-- Step 2: adopt the collapsed row set (and its length as the total)
unless it is a single collapsed-series row, in which case the filtered
working set and the previous total are kept. -/
def applyCollapseGuard (items : List LibraryItemObj) (total : Nat)
    (collapsed : List LibraryItemObj) : List LibraryItemObj × Nat :=
  if isSingleCollapsedRow collapsed then (items, total)
  else (collapsed, collapsed.length)

/-- Steps 2–3.5 of `getLibraryItems` with the external collaborators'
outputs as inputs: `filteredItems` is the access-filtered working set
(Step 1's output), `collapsedItems` is `collapseBookSeries`'s output
(consulted only when `collapseseries` is requested).  Returns the sorted,
paginated results and the reported total. -/
def getLibraryItemsCore (noArt : Bool) (ctx : SortCtx) (limit page : Nat)
    (filteredItems collapsedItems : List LibraryItemObj) :
    List LibraryItemObj × Nat :=
  let wsTotal :=
    if ctx.collapseseries then
      applyCollapseGuard filteredItems filteredItems.length collapsedItems
    else (filteredItems, filteredItems.length)
  (paginate limit page (applySortChain (buildSortChain noArt ctx) wsTotal.1),
   wsTotal.2)

/-! ## Search (`LibraryController.search`, source lines 700–773) -/

/-- A canonical author table entry (`Database.authors`). -/
structure AuthorObj where
  id : String
  name : String
deriving DecidableEq

/-- A canonical series table entry (`Database.series`). -/
structure SeriesObj where
  id : String
  name : String
deriving DecidableEq

/-- An id-carrying reference inside a per-item match result. -/
structure IdRef where
  id : String
deriving DecidableEq

/-- The per-item match result produced by `li.searchQuery(q)`. -/
structure QueryResult where
  matchKey : Option String
  matchText : String
  series : List IdRef
  authors : List IdRef
  tags : List String
  narrators : List String

/-- A library item as the search sees it: its projection (modelled by its
id) and its own text-matching capability.  Modelled from the spec:
`searchQuery` is the item's matching capability, an external collaborator
not under `src/`, so it is an input here. -/
structure SearchItem where
  id : String
  searchQuery : String → QueryResult

/-- An items-facet entry `{libraryItem, matchKey, matchText}` (the item
projection modelled by its id). -/
structure ItemMatch where
  libraryItem : String
  matchKey : String
  matchText : String
deriving DecidableEq

/-- An authors-facet aggregate: the author projection plus `numBooks`. -/
structure AuthorAgg where
  author : AuthorObj
  numBooks : Nat
deriving DecidableEq

/-- A series-facet aggregate: the series projection plus the accumulated
member book projections. -/
structure SeriesAgg where
  series : SeriesObj
  books : List String
deriving DecidableEq

/-- A tag- or narrator-facet aggregate: the literal name plus the
accumulated member book projections. -/
structure NameAgg where
  name : String
  books : List String
deriving DecidableEq

/-- The five keyed facet accumulators.  Each keyed facet object is stored
as an association list in insertion (first-occurrence) order; the order in
which JavaScript actually enumerates the object's values — array-index-like
keys first, in ascending numeric order, then the remaining string keys in
insertion order — is recovered by `jsObjectValues` when the response is
assembled. -/
structure SearchAcc where
  itemMatches : List ItemMatch
  seriesMatches : List (String × SeriesAgg)
  authorMatches : List (String × AuthorAgg)
  tagMatches : List (String × NameAgg)
  narratorMatches : List (String × NameAgg)
deriving DecidableEq

/-- The empty accumulator. -/
def SearchAcc.empty : SearchAcc :=
  ⟨[], [], [], [], []⟩

/-- `authorMatches[au.id].numBooks++` on the entry with the given key. -/
def bumpAuthor : List (String × AuthorAgg) → String → List (String × AuthorAgg)
  | [], _ => []
  | (k, agg) :: t, i =>
    if k = i then (k, { agg with numBooks := agg.numBooks + 1 }) :: t
    else (k, agg) :: bumpAuthor t i

/-- `seriesMatches[se.id].books.push(li.toJSON())` on the entry with the
given key. -/
def pushSeriesBook : List (String × SeriesAgg) → String → String → List (String × SeriesAgg)
  | [], _, _ => []
  | (k, agg) :: t, i, b =>
    if k = i then (k, { agg with books := agg.books ++ [b] }) :: t
    else (k, agg) :: pushSeriesBook t i b

/-- `m[name].books.push(li.toJSON())` on the tag / narrator entry with the
given key. -/
def pushNameBook : List (String × NameAgg) → String → String → List (String × NameAgg)
  | [], _, _ => []
  | (k, agg) :: t, i, b =>
    if k = i then (k, { agg with books := agg.books ++ [b] }) :: t
    else (k, agg) :: pushNameBook t i b

/-- Process one author reference (source lines 732–744): a fresh id is
looked up in the canonical author table and, when found, inserted with
`numBooks = 1` (an unresolvable id is skipped); a known id has its
`numBooks` incremented. -/
def processAuthorRef (authorTable : List AuthorObj) (m : List (String × AuthorAgg))
    (au : IdRef) : List (String × AuthorAgg) :=
  match m.lookup au.id with
  | none =>
    match authorTable.find? (fun a => a.id == au.id) with
    | some a => m ++ [(au.id, ⟨a, 1⟩)]
    | none => m
  | some _ => bumpAuthor m au.id

/-- Process one series reference (source lines 722–730): a fresh id is
looked up in the canonical series table and, when found, inserted with the
current item as first member book (an unresolvable id is skipped); a known
id has the current item appended to its books. -/
def processSeriesRef (seriesTable : List SeriesObj) (liId : String)
    (m : List (String × SeriesAgg)) (se : IdRef) : List (String × SeriesAgg) :=
  match m.lookup se.id with
  | none =>
    match seriesTable.find? (fun s => s.id == se.id) with
    | some s => m ++ [(se.id, ⟨s, [liId]⟩)]
    | none => m
  | some _ => pushSeriesBook m se.id liId

/-- Process one literal tag / narrator value (source lines 745–762): a fresh
value is inserted with the current item as first member book, a known value
has the current item appended — no canonical lookup. -/
def processNameRef (liId : String) (m : List (String × NameAgg))
    (nm : String) : List (String × NameAgg) :=
  match m.lookup nm with
  | none => m ++ [(nm, ⟨nm, [liId]⟩)]
  | some _ => pushNameBook m nm liId

/-- Scan one item (source lines 713–763): push an items-facet entry when the
match key is present (and, being a JavaScript truthiness test, non-empty),
then upsert every series, author, tag and narrator reference the match
result carries. -/
def searchStep (seriesTable : List SeriesObj) (authorTable : List AuthorObj)
    (q : String) (acc : SearchAcc) (li : SearchItem) : SearchAcc :=
  let qr := li.searchQuery q
  let acc :=
    match qr.matchKey with
    | some mk =>
      if mk = "" then acc
      else { acc with itemMatches := acc.itemMatches ++ [ItemMatch.mk li.id mk qr.matchText] }
    | none => acc
  let acc := { acc with
               seriesMatches :=
                 qr.series.foldl (processSeriesRef seriesTable li.id) acc.seriesMatches }
  let acc := { acc with
               authorMatches :=
                 qr.authors.foldl (processAuthorRef authorTable) acc.authorMatches }
  let acc := { acc with
               tagMatches := qr.tags.foldl (processNameRef li.id) acc.tagMatches }
  let acc := { acc with
               narratorMatches :=
                 qr.narrators.foldl (processNameRef li.id) acc.narratorMatches }
  acc

/-- The full scan over the working item set. -/
def runSearchScan (seriesTable : List SeriesObj) (authorTable : List AuthorObj)
    (q : String) (items : List SearchItem) : SearchAcc :=
  items.foldl (searchStep seriesTable authorTable q) SearchAcc.empty

/-- A signed exact decimal: the JavaScript number `±(mag.mant / 10 ^ mag.scale)`. -/
structure SDec where
  neg : Bool
  mag : Dec
deriving DecidableEq

/-- The unsigned decimal-numeral forms `digits`, `digits.digits*`,
`.digits` (the same three alternatives the sequence regex accepts), at the
character-list level. -/
def decimalNumeralL (cs : List Char) : Bool :=
  match splitOnChar '.' cs with
  | [ds] => !ds.isEmpty && ds.all (·.isDigit)
  | [as, bs] => as.all (·.isDigit) && bs.all (·.isDigit) && (!as.isEmpty || !bs.isEmpty)
  | _ => false

/-- Value of an unsigned decimal numeral: integer digits before the first
point, fraction digits after it. -/
def parseDecimalL (cs : List Char) : Dec :=
  match cs.span (· ≠ '.') with
  | (intDs, rest) =>
    let fracDs := rest.drop 1
    ⟨natOfDigits intDs * 10 ^ fracDs.length + natOfDigits fracDs, fracDs.length⟩

/-- `Number(s)` on the signed decimal numerals a limit parameter can carry:
an optional sign followed by a decimal numeral.  (Other strings `isNaN`
accepts — whitespace, exponent or hex forms — do not occur as limit
parameters and are outside the model; for them `Number` is not a plain
decimal value.) -/
def jsNumberOfNumeral (s : String) : Option SDec :=
  match s.data with
  | '-' :: rest => if decimalNumeralL rest then some ⟨true, parseDecimalL rest⟩ else none
  | '+' :: rest => if decimalNumeralL rest then some ⟨false, parseDecimalL rest⟩ else none
  | cs => if decimalNumeralL cs then some ⟨false, parseDecimalL cs⟩ else none

/-- `req.query.limit && !isNaN(req.query.limit) ? Number(req.query.limit) : 12`:
the per-facet result cap as a JavaScript number, defaulting to 12 for a
missing, empty or non-numeral limit. -/
def searchMaxResults (limitParam : Option String) : SDec :=
  match limitParam with
  | some s =>
    if s = "" then ⟨false, ⟨12, 0⟩⟩
    else
      match jsNumberOfNumeral s with
      | some n => n
      | none => ⟨false, ⟨12, 0⟩⟩
  | none => ⟨false, ⟨12, 0⟩⟩

/-- An *array index* key per the JavaScript object model: the canonical
numeric string of an integer `0 ≤ n < 2 ^ 32 - 1` ("0", or digits without a
leading zero).  Ordinary objects enumerate these keys first, in ascending
numeric order, before the other string keys. -/
def isArrayIndexKey (s : String) : Bool :=
  match s.data with
  | [] => false
  | c :: cs =>
    (c :: cs).all (·.isDigit) && (decide (c ≠ '0') || cs.isEmpty) &&
      natOfDigits (c :: cs) < 2 ^ 32 - 1

/-- Insert into a list sorted ascending by the numeric key. -/
def insertByNatKey {β : Type} (x : Nat × β) : List (Nat × β) → List (Nat × β)
  | [] => [x]
  | y :: ys => if x.1 < y.1 then x :: y :: ys else y :: insertByNatKey x ys

/-- Sort pairs ascending by their numeric key. -/
def sortByNatKey {β : Type} (l : List (Nat × β)) : List (Nat × β) :=
  l.foldl (fun acc x => insertByNatKey x acc) []

/-- `Object.values(m)` for an ordinary JavaScript object built in the
stored insertion order: values under array-index keys first, in ascending
numeric key order, then the remaining values in insertion order. -/
def jsObjectValues {β : Type} (m : List (String × β)) : List β :=
  (sortByNatKey ((m.filter (fun p => isArrayIndexKey p.1)).map
      (fun p => (natOfDigits p.1.data, p.2)))).map (fun p => p.2) ++
    (m.filter (fun p => !isArrayIndexKey p.1)).map (fun p => p.2)

/-- `arr.slice(0, n)` for a JavaScript number `n`: the end index is the
truncation of `n` toward zero; a non-negative end takes that many elements
from the front, a strictly negative integer end drops that many from the
back (a negative `n` in `(-1, 0]` truncates to zero and yields the empty
slice). -/
def jsSlice0 {β : Type} (n : SDec) (l : List β) : List β :=
  let t := n.mag.mant / 10 ^ n.mag.scale
  if n.neg then
    if t = 0 then [] else l.take (l.length - min t l.length)
  else l.take t

/-- The five capped facet collections of the response (the items facet is
keyed by the library's media type in the response object; it is the `items`
field here). -/
structure SearchResults where
  items : List ItemMatch
  tags : List NameAgg
  authors : List AuthorAgg
  series : List SeriesAgg
  narrators : List NameAgg
deriving DecidableEq

/-- The search operation (source lines 700–773): reject a missing or empty
query string with a bad request before anything is scanned; otherwise scan
every item and slice each facet's collection — the items array directly,
the four keyed facets through `Object.values` enumeration order — to the
first `maxResults` entries. -/
def search (seriesTable : List SeriesObj) (authorTable : List AuthorObj)
    (items : List SearchItem) (q : Option String) (limitParam : Option String) :
    Except String SearchResults :=
  match q with
  | none => .error "No query string"
  | some qs =>
    if qs = "" then .error "No query string"
    else
      let n := searchMaxResults limitParam
      let acc := runSearchScan seriesTable authorTable qs items
      .ok { items := jsSlice0 n acc.itemMatches,
            tags := jsSlice0 n (jsObjectValues acc.tagMatches),
            authors := jsSlice0 n (jsObjectValues acc.authorMatches),
            series := jsSlice0 n (jsObjectValues acc.seriesMatches),
            narrators := jsSlice0 n (jsObjectValues acc.narratorMatches) }

/-! ## Helper folds over the search accumulator -/

/-- Fold a list of author references into the authors accumulator. -/
def authorFold (authorTable : List AuthorObj) (m : List (String × AuthorAgg))
    (rs : List IdRef) : List (String × AuthorAgg) :=
  rs.foldl (processAuthorRef authorTable) m

/-- All author references the scan processes, in scan order. -/
def allAuthorRefs (q : String) (items : List SearchItem) : List IdRef :=
  (items.map (fun li => (li.searchQuery q).authors)).flatten

/-- How often an id occurs among a list of references. -/
def countRefs (rs : List IdRef) (i : String) : Nat :=
  (rs.map IdRef.id).count i

/-! ## Concrete fixtures used in examples and witnesses -/

/-- A series fixture whose sort-friendly title precedes `exSeriesB`'s. -/
def exSeriesA : SeriesRef := ⟨"se_1", "Alpha Saga", some "1", "Alpha Saga"⟩

/-- The later-sorting series fixture. -/
def exSeriesB : SeriesRef := ⟨"se_2", "Beta Saga", some "1", "Beta Saga"⟩

/-- A book by Jane Doe in `exSeriesA`. -/
def exBook1 : LibraryItemObj :=
  ⟨"li_1", ⟨⟨"Title One", "Title One", "Jane Doe", [exSeriesA]⟩⟩, none, 1⟩

/-- A book by the same author in `exSeriesB`. -/
def exBook2 : LibraryItemObj :=
  ⟨"li_2", ⟨⟨"Title Two", "Title Two", "Jane Doe", [exSeriesB]⟩⟩, none, 2⟩

/-- A book sharing `exBook1`'s title (hence an equal title sort key) by
another author. -/
def exBook3 : LibraryItemObj :=
  ⟨"li_3", ⟨⟨"Title One", "Title One", "John Q", []⟩⟩, none, 3⟩

/-- A books-library request sorting by author name. -/
def exAuthorCtx : SortCtx :=
  ⟨none, some "media.metadata.authorName", false, false, "book"⟩

/-- A books-library request sorting by title. -/
def exTitleCtx : SortCtx :=
  ⟨none, some "media.metadata.title", false, false, "book"⟩

/-- Author table for the search fixtures: A and B are resolvable, the id
`"au_X"` is not. -/
def exAuthorA : AuthorObj := ⟨"au_A", "Author A"⟩

/-- The second resolvable author fixture. -/
def exAuthorB : AuthorObj := ⟨"au_B", "Author B"⟩

/-- The canonical author table of the fixtures. -/
def exAuthorTable : List AuthorObj := [exAuthorA, exAuthorB]

/-- The canonical series table of the fixtures (`"se_X"` is absent). -/
def exSeriesTable : List SeriesObj := [⟨"se_S", "Series S"⟩]

/-- Three scanned items matching authors A, B, A in scan order; the first
also references the unresolvable author `"au_X"` and the unresolvable
series `"se_X"`, the second the resolvable series `"se_S"`. -/
def exSearchItems : List SearchItem :=
  [⟨"li_1", fun _ => ⟨some "title", "m1", [⟨"se_X"⟩], [⟨"au_A"⟩, ⟨"au_X"⟩], [], []⟩⟩,
   ⟨"li_2", fun _ => ⟨none, "", [⟨"se_S"⟩], [⟨"au_B"⟩], [], []⟩⟩,
   ⟨"li_3", fun _ => ⟨none, "", [], [⟨"au_A"⟩], [], []⟩⟩]

/-- One scanned item carrying a non-numeric tag and then an
array-index-like tag, in that first-occurrence order. -/
def cexTagItems : List SearchItem :=
  [⟨"li_1", fun _ => ⟨none, "", [], [], ["btag", "7"], []⟩⟩]

/-! ## Theorems -/

/-! ### C1 — range extension condition -/

/-- C1 counterexample: a fractional numeric token does extend an open
range.  On the ascending input `["1.5", "2.5"]` (book sequences 1.5 and
2.5) the token `"2.5"` is numeric but not an integer, and since
`1.5 + 1 == 2.5` the reducer extends the open range instead of starting a
new one, rendering `"1.5-2.5"` — the claim's "no fractional numeric token
ever extends an existing range" fails here. -/
theorem seq_fractional_extends_cex :
    compactSeqList ["1.5", "2.5"] = "1.5-2.5" ∧
    isSeqNumber "2.5" = true ∧
    Dec.isInt (parseSeqToken "2.5") = false ∧
    seqReduceStep [⟨.num ⟨15, 1⟩, .num ⟨15, 1⟩, true⟩] "2.5" =
      [⟨.num ⟨15, 1⟩, .num ⟨25, 1⟩, true⟩] := by
  refine ⟨by decide, by decide, by decide, by decide⟩

/-- C1 (amended): a step of the compaction reducer extends the open range
(leaves the number of ranges unchanged) exactly when a range is open, the
current token is numeric, the immediately preceding token was numeric
(the open range's `isNumber` flag), and the current parsed value equals the
open range's end plus 1 exactly — a test on the parsed numeric values, so a
fractional value at exact distance 1 does extend, while a non-consecutive
value never does. -/
theorem seqReduceStep_extends_iff (ranges : List SeqRange) (tok : String) :
    (seqReduceStep ranges tok).length = ranges.length ↔
      ∃ last, ranges.getLast? = some last ∧ isSeqNumber tok = true ∧
        last.isNumber = true ∧
        seqSucc last.stop (SeqValue.num (parseSeqToken tok)) = true := by
  cases hL : ranges.getLast? with
  | none =>
    simp [seqReduceStep, hL]
  | some last =>
    have hlen : 1 ≤ ranges.length := by
      cases ranges with
      | nil => simp at hL
      | cons a t => simp
    by_cases hN : isSeqNumber tok = true
    · by_cases hB : last.isNumber = true
      · by_cases hS : seqSucc last.stop (SeqValue.num (parseSeqToken tok)) = true
        · simp [seqReduceStep, hL, hN, hB, hS]
          omega
        · simp [seqReduceStep, hL, hN, hB,
            Bool.not_eq_true _ ▸ hS, (Bool.not_eq_true _).mp hS]
      · simp [seqReduceStep, hL, hN, (Bool.not_eq_true _).mp hB]
    · simp [seqReduceStep, hL, (Bool.not_eq_true _).mp hN]

/-! ### C2 — compactor classification, rendering, joining -/

/-- C2: the compactor classifies a token as numeric exactly per the spec's
pattern (one or more digits optionally followed by a decimal point and
digits, or a decimal point with digits before and/or after — accepting
`"3"`, `"3.5"`, `".5"`, `"3."`), renders a closed range as its start alone
when the endpoints are equal and as `"start-end"` otherwise, joins the
rendered ranges with `", "` (so the empty input yields the empty string),
and produces the spec's example outputs. -/
theorem compactSeqList_contract :
    (∀ s : String, isSeqNumber s = specNumericPattern s) ∧
    isSeqNumber "3" = true ∧ isSeqNumber "3.5" = true ∧
    isSeqNumber ".5" = true ∧ isSeqNumber "3." = true ∧
    isSeqNumber "3a" = false ∧ isSeqNumber "." = false ∧
    (∀ r : SeqRange, renderSeqRange r =
      if SeqValue.looseEq r.start r.stop then r.start.render
      else r.start.render ++ "-" ++ r.stop.render) ∧
    (∀ tokens : List String, compactSeqList tokens =
      String.intercalate ", " ((tokens.foldl seqReduceStep []).map renderSeqRange)) ∧
    compactSeqList ["1", "2", "3", "5", "7", "8"] = "1-3, 5, 7-8" ∧
    compactSeqList ["1", "1.5", "2"] = "1, 1.5, 2" ∧
    compactSeqList [] = "" ∧
    compactSeqList ["3a"] = "3a" := by
  refine ⟨?_, by decide, by decide, by decide, by decide, by decide, by decide,
    fun r => rfl, fun tokens => rfl, by decide, by decide, by decide, by decide⟩
  intro s
  unfold isSeqNumber specNumericPattern
  cases h : splitOnChar '.' s.data with
  | nil => rfl
  | cons a t =>
    cases t with
    | nil => rfl
    | cons b t2 =>
      cases t2 with
      | nil =>
        cases hA : a.all (·.isDigit) <;> cases hB : b.all (·.isDigit) <;>
          cases hE : a.isEmpty <;> cases hF : b.isEmpty <;> simp [hA, hB, hE, hF]
      | cons c t3 => rfl

/-! ### C3 — dotted sort-key resolution on missing values -/

/-- Property access only throws on an `undefined` or `null` receiver; every
other receiver yields some value. -/
theorem JsVal.get_ok (v : JsVal) (k : String) (h1 : v ≠ .undefined) (h2 : v ≠ .null) :
    ∃ w, JsVal.get v k = .ok w := by
  cases v with
  | undefined => exact absurd rfl h1
  | null => exact absurd rfl h2
  | num n => exact ⟨_, rfl⟩
  | str s => exact ⟨_, rfl⟩
  | obj fs => exact ⟨_, rfl⟩
  | arr xs =>
    simp only [JsVal.get]
    split
    · exact ⟨_, rfl⟩
    · cases k.toNat? with
      | some i => exact ⟨_, rfl⟩
      | none => exact ⟨_, rfl⟩

/-- A concrete library item used in counterexamples. -/
def plainItem : LibraryItemObj :=
  ⟨"li_1", ⟨⟨"Some Title", "Some Title", "Jane Roe", []⟩⟩, none, 1000⟩

/-- C3 counterexample: resolving the dotted sort-field path `"foo.bar"` on a
real library item raises (`li["foo"]` is `undefined`, and the subsequent
access `undefined["bar"]` throws a `TypeError`), instead of ranking as the
empty string without error as the claim states. -/
theorem resolvePath_raises_cex :
    resolvePath (LibraryItemObj.toJs plainItem) "foo.bar" = .error "TypeError" := by
  rfl

/-- C3 (amended): resolving a chain of property accesses on an item raises
exactly when some proper prefix of the path resolves to `undefined` (or
`null`) and another key follows — i.e. a missing *final* attribute resolves
to `undefined` without error and then ranks as the empty string, but an
`undefined` *intermediate* attribute makes the resolution itself throw a
`TypeError`. -/
theorem resolveKeys_error_iff :
    (∀ (v : JsVal) (ks : List String),
      (∃ e, resolveKeys v ks = .error e) ↔
        ∃ p k rest, ks = p ++ k :: rest ∧
          (resolveKeys v p = .ok .undefined ∨ resolveKeys v p = .ok .null)) ∧
    sortKeyString JsVal.undefined = "" := by
  refine ⟨?_, rfl⟩
  intro v ks
  induction ks generalizing v with
  | nil =>
    simp [resolveKeys]
  | cons k ks ih =>
    by_cases h1 : v = .undefined
    · subst h1
      constructor
      · intro _
        exact ⟨[], k, ks, rfl, Or.inl rfl⟩
      · intro _
        exact ⟨"TypeError", rfl⟩
    · by_cases h2 : v = .null
      · subst h2
        constructor
        · intro _
          exact ⟨[], k, ks, rfl, Or.inr rfl⟩
        · intro _
          exact ⟨"TypeError", rfl⟩
      · obtain ⟨w, hw⟩ := JsVal.get_ok v k h1 h2
        have hred : resolveKeys v (k :: ks) = resolveKeys w ks := by
          simp [resolveKeys, hw]
        rw [hred, ih w]
        constructor
        · rintro ⟨p, k0, rest, hp, hres⟩
          refine ⟨k :: p, k0, rest, by rw [hp]; rfl, ?_⟩
          have : resolveKeys v (k :: p) = resolveKeys w p := by
            simp [resolveKeys, hw]
          rw [this]
          exact hres
        · rintro ⟨p, k0, rest, hp, hres⟩
          cases p with
          | nil =>
            simp [resolveKeys] at hres
            rcases hres with h | h
            · exact absurd h h1
            · exact absurd h h2
          | cons k' p' =>
            have hk : k' = k ∧ ks = p' ++ k0 :: rest := by
              have := hp
              simp at this
              exact ⟨this.1.symm, this.2⟩
            obtain ⟨hk1, hk2⟩ := hk
            subst hk1
            have : resolveKeys v (k' :: p') = resolveKeys w p' := by
              simp [resolveKeys, hw]
            rw [this] at hres
            exact ⟨p', k0, rest, hk2, hres⟩

/-! ### C7 — pagination -/

/-- C7: `limit = 0` disables pagination (the full list, unmodified); a
positive limit yields exactly the contiguous slice
`[page * limit, page * limit + limit)` — element `i` of the page is element
`page * limit + i` of the list, and positions beyond the limit are absent —
so an out-of-range page or limit simply yields a possibly-empty slice, and
`limit = 10, page = 1` over 25 items returns exactly positions 10–19. -/
theorem paginate_contract :
    (∀ (α : Type) (page : Nat) (l : List α), paginate 0 page l = l) ∧
    (∀ (α : Type) (limit page : Nat) (l : List α) (i : Nat),
      (paginate (limit + 1) page l)[i]? =
        if i < limit + 1 then l[page * (limit + 1) + i]? else none) ∧
    paginate 10 1 (List.range 25) =
      [10, 11, 12, 13, 14, 15, 16, 17, 18, 19] := by
  refine ⟨fun α page l => rfl, ?_, by decide⟩
  intro α limit page l i
  unfold paginate
  rw [if_neg (Nat.succ_ne_zero limit)]
  by_cases h : i < limit + 1
  · rw [if_pos h, List.getElem?_take_of_lt h, List.getElem?_drop]
  · rw [if_neg h]
    have hlen : (((l.drop (page * (limit + 1))).take (limit + 1))).length ≤ i := by
      have := List.length_take_le (limit + 1) (l.drop (page * (limit + 1)))
      omega
    exact List.getElem?_eq_none hlen

/-! ### C5 — search query validation -/

/-- C5: the search fails with the bad-request outcome exactly when the query
string is missing or empty, and the failure is the bare error — no facet
data accompanies it (the scan is never consulted; in this pure model the
error constructor carries nothing but the message). -/
theorem search_badRequest_iff :
    (∀ (seriesTable : List SeriesObj) (authorTable : List AuthorObj)
        (items : List SearchItem) (q : Option String) (limitParam : Option String),
      (∃ e, search seriesTable authorTable items q limitParam = .error e) ↔
        (q = none ∨ q = some "")) ∧
    (∀ (seriesTable : List SeriesObj) (authorTable : List AuthorObj)
        (items : List SearchItem) (limitParam : Option String),
      search seriesTable authorTable items none limitParam =
        .error "No query string" ∧
      search seriesTable authorTable items (some "") limitParam =
        .error "No query string") := by
  constructor
  · intro seriesTable authorTable items q limitParam
    cases q with
    | none =>
      simp [search]
    | some qs =>
      by_cases h : qs = ""
      · subst h
        simp [search]
      · simp [search, h]
  · intro seriesTable authorTable items limitParam
    exact ⟨rfl, rfl⟩

/-! ### C4 — per-facet truncation after the scan -/

/-- C4 counterexample: with tags scanned in first-occurrence order
`"btag"`, `"7"` and a result cap of 1, `Object.values` enumerates the
array-index-like key `"7"` first (ascending numeric keys precede
insertion-ordered string keys), so the tags facet is the `"7"` aggregate —
not the first-N-in-insertion-order prefix, which would be the `"btag"`
aggregate.  The claimed first-occurrence truncation therefore fails. -/
theorem search_tag_truncation_cex :
    search [] [] cexTagItems (some "q") (some "1") =
      .ok { items := [], tags := [⟨"7", ["li_1"]⟩], authors := [], series := [],
            narrators := [] } ∧
    ((runSearchScan [] [] "q" cexTagItems).tagMatches.map (fun p => p.2)).take 1 =
      [⟨"btag", ["li_1"]⟩] ∧
    ¬ ([(⟨"7", ["li_1"]⟩ : NameAgg)] = [(⟨"btag", ["li_1"]⟩ : NameAgg)]) := by
  refine ⟨rfl, by decide, by decide⟩

/-- C4 (amended): after the scan completes, each facet of the response is
the `slice(0, maxResults)` prefix of that facet's Object.values
enumeration of the untruncated scan accumulator: the items array is in
scan order, and each keyed facet enumerates array-index-like keys first in
ascending numeric order followed by the remaining keys in insertion
(first-occurrence) order — which is plain first-occurrence order whenever
no key of the facet is an array-index string (always true of the items
facet, and of the app's prefixed author and series ids).  The cap defaults
to 12 when no limit is given; a fractional limit truncates (cap `"5.5"`
keeps 5 entries) and a negative limit drops entries from the end (cap
`"-2"` keeps all but the last 2).  Nothing is re-sorted by content.  (A
non-empty query is written `c :: cs` to keep the statement
hypothesis-free.) -/
theorem search_facets_enumeration :
    (∀ (seriesTable : List SeriesObj) (authorTable : List AuthorObj)
        (items : List SearchItem) (c : Char) (cs : List Char)
        (limitParam : Option String),
      search seriesTable authorTable items (some (String.mk (c :: cs))) limitParam =
        .ok { items := jsSlice0 (searchMaxResults limitParam)
                (runSearchScan seriesTable authorTable (String.mk (c :: cs))
                  items).itemMatches,
              tags := jsSlice0 (searchMaxResults limitParam)
                (jsObjectValues (runSearchScan seriesTable authorTable
                  (String.mk (c :: cs)) items).tagMatches),
              authors := jsSlice0 (searchMaxResults limitParam)
                (jsObjectValues (runSearchScan seriesTable authorTable
                  (String.mk (c :: cs)) items).authorMatches),
              series := jsSlice0 (searchMaxResults limitParam)
                (jsObjectValues (runSearchScan seriesTable authorTable
                  (String.mk (c :: cs)) items).seriesMatches),
              narrators := jsSlice0 (searchMaxResults limitParam)
                (jsObjectValues (runSearchScan seriesTable authorTable
                  (String.mk (c :: cs)) items).narratorMatches) }) ∧
    (∀ (β : Type) (m : List (String × β)),
      m.all (fun p => !isArrayIndexKey p.1) = true →
      jsObjectValues m = m.map (fun p => p.2)) ∧
    searchMaxResults none = ⟨false, ⟨12, 0⟩⟩ ∧
    searchMaxResults (some "") = ⟨false, ⟨12, 0⟩⟩ ∧
    searchMaxResults (some "abc") = ⟨false, ⟨12, 0⟩⟩ ∧
    searchMaxResults (some "5") = ⟨false, ⟨5, 0⟩⟩ ∧
    jsSlice0 (searchMaxResults none) (List.range 20) =
      [0, 1, 2, 3, 4, 5, 6, 7, 8, 9, 10, 11] ∧
    jsSlice0 (searchMaxResults (some "5.5")) (List.range 10) = [0, 1, 2, 3, 4] ∧
    jsSlice0 (searchMaxResults (some "-2")) (List.range 5) = [0, 1, 2] := by
  refine ⟨?_, ?_, rfl, by decide, by decide, by decide, by decide, by decide,
    by decide⟩
  · intro seriesTable authorTable items c cs limitParam
    have hne : String.mk (c :: cs) ≠ "" := by
      intro h
      simpa using congrArg String.data h
    simp [search, hne]
  · intro β m hm
    have h1 : m.filter (fun p => isArrayIndexKey p.1) = [] := by
      rw [List.filter_eq_nil_iff]
      intro a ha
      have := List.all_eq_true.mp hm a ha
      simp at this
      simp [this]
    have h2 : m.filter (fun p => !isArrayIndexKey p.1) = m := by
      rw [List.filter_eq_self]
      intro a ha
      exact List.all_eq_true.mp hm a ha
    unfold jsObjectValues
    rw [h1, h2]
    rfl

/-! ### C10 — single-collapsed-row guard -/

/-- C10: when series-collapsing is requested and the collapsing collaborator
returns exactly one row that is a collapsed-series row, the listing
discards the collapsed result and proceeds on the uncollapsed filtered
working set: the response is the sorted, paginated filtered items and the
total is the filtered item count (the context is written with
`collapseseries := true` and the single row with an attached collapsed
series, so the statement is hypothesis-free). -/
theorem collapse_guard_discards :
    ∀ (noArt : Bool) (fs sb : Option String) (sd : Bool) (mt : String)
      (limit page : Nat) (filteredItems : List LibraryItemObj)
      (base : LibraryItemObj) (cso : CollapsedSeriesObj),
      getLibraryItemsCore noArt ⟨fs, sb, sd, true, mt⟩ limit page filteredItems
          [{ base with collapsedSeries := some cso }] =
        (paginate limit page
          (applySortChain (buildSortChain noArt ⟨fs, sb, sd, true, mt⟩) filteredItems),
         filteredItems.length) := by
  intro noArt fs sb sd mt limit page filteredItems base cso
  simp [getLibraryItemsCore, applyCollapseGuard, isSingleCollapsedRow]

/-! ### Comparator laws (for the stability and tie-break theorems) -/

/-- Unit comparison is reflexive-discriminating: `eq` exactly on equal
units. -/
theorem natTokCmp_eq_iff (a b : NatTok) : natTokCmp a b = .eq ↔ a = b := by
  cases a <;> cases b <;> simp [natTokCmp, Nat.compare_eq_eq]

/-- Unit comparison is antisymmetric under `swap`. -/
theorem natTokCmp_swap (a b : NatTok) : (natTokCmp a b).swap = natTokCmp b a := by
  cases a <;> cases b <;> first | rfl | simp [natTokCmp, Nat.compare_swap]

/-- Unit comparison is transitive on strict order. -/
theorem natTokCmp_lt_trans {a b c : NatTok} (h1 : natTokCmp a b = .lt)
    (h2 : natTokCmp b c = .lt) : natTokCmp a c = .lt := by
  cases a <;> cases b <;> cases c <;>
    simp_all [natTokCmp, Nat.compare_eq_lt] <;> omega

/-- `Ordering.then` distributes over `swap`. -/
theorem orderingThen_swap (x y : Ordering) : (x.then y).swap = x.swap.then y.swap := by
  cases x <;> rfl

/-- Lexicographic unit-list comparison is `eq` exactly on equal lists. -/
theorem natTokListCmp_eq_iff (as bs : List NatTok) :
    natTokListCmp as bs = .eq ↔ as = bs := by
  induction as generalizing bs with
  | nil => cases bs <;> simp [natTokListCmp]
  | cons a as ih =>
    cases bs with
    | nil => simp [natTokListCmp]
    | cons b bs =>
      simp [natTokListCmp, Ordering.then_eq_eq, natTokCmp_eq_iff, ih]

/-- Lexicographic unit-list comparison is antisymmetric under `swap`. -/
theorem natTokListCmp_swap (as bs : List NatTok) :
    (natTokListCmp as bs).swap = natTokListCmp bs as := by
  induction as generalizing bs with
  | nil => cases bs <;> rfl
  | cons a as ih =>
    cases bs with
    | nil => rfl
    | cons b bs =>
      show ((natTokCmp a b).then (natTokListCmp as bs)).swap = _
      rw [orderingThen_swap, natTokCmp_swap, ih]
      rfl

/-- Lexicographic unit-list comparison is transitive on strict order. -/
theorem natTokListCmp_lt_trans {as bs cs : List NatTok}
    (h1 : natTokListCmp as bs = .lt) (h2 : natTokListCmp bs cs = .lt) :
    natTokListCmp as cs = .lt := by
  induction as generalizing bs cs with
  | nil =>
    cases bs with
    | nil => simp [natTokListCmp] at h1
    | cons b bs =>
      cases cs with
      | nil => simp [natTokListCmp] at h2
      | cons c cs => rfl
  | cons a as ih =>
    cases bs with
    | nil => simp [natTokListCmp] at h1
    | cons b bs =>
      cases cs with
      | nil => simp [natTokListCmp] at h2
      | cons c cs =>
        have h1' := h1
        have h2' := h2
        show (natTokCmp a c).then (natTokListCmp as cs) = .lt
        rw [show natTokListCmp (a :: as) (b :: bs) =
          (natTokCmp a b).then (natTokListCmp as bs) from rfl,
          Ordering.then_eq_lt] at h1'
        rw [show natTokListCmp (b :: bs) (c :: cs) =
          (natTokCmp b c).then (natTokListCmp bs cs) from rfl,
          Ordering.then_eq_lt] at h2'
        rw [Ordering.then_eq_lt]
        rcases h1' with hab | ⟨hab, htab⟩
        · rcases h2' with hbc | ⟨hbc, htbc⟩
          · exact Or.inl (natTokCmp_lt_trans hab hbc)
          · rw [natTokCmp_eq_iff] at hbc
            subst hbc
            exact Or.inl hab
        · rw [natTokCmp_eq_iff] at hab
          subst hab
          rcases h2' with hbc | ⟨hbc, htbc⟩
          · exact Or.inl hbc
          · rw [natTokCmp_eq_iff] at hbc
            subst hbc
            exact Or.inr ⟨(natTokCmp_eq_iff _ _).mpr rfl, ih htab htbc⟩

/-- The natural comparator is antisymmetric under `swap`. -/
theorem natCompare_swap (a b : String) : (natCompare a b).swap = natCompare b a :=
  natTokListCmp_swap _ _

/-- The natural comparator is transitive on strict order. -/
theorem natCompare_lt_trans {a b c : String} (h1 : natCompare a b = .lt)
    (h2 : natCompare b c = .lt) : natCompare a c = .lt :=
  natTokListCmp_lt_trans h1 h2

/-- Strings the natural comparator deems equal have identical comparison
keys (`"ABC"` and `"abc"` fold to the same unit list). -/
theorem natCompare_eq_tokens {a b : String} (h : natCompare a b = .eq) :
    natTokens a = natTokens b :=
  (natTokListCmp_eq_iff _ _).mp h

/-- `swap` turns `lt` into `gt` and back. -/
theorem orderingSwap_eq_lt (o : Ordering) : o.swap = .lt ↔ o = .gt := by
  cases o <;> decide

/-- An entry comparison is antisymmetric under `swap`. -/
theorem entryCmp_swap (e : SortEntry) (a b : LibraryItemObj) :
    (entryCmp e a b).swap = entryCmp e b a := by
  unfold entryCmp
  by_cases h : e.desc = true
  · simp only [h, if_true]
    rw [Ordering.swap_swap, natCompare_swap]
  · simp only [h, if_false]
    rw [if_neg (by simp [h]), if_neg (by simp [h]), natCompare_swap]

/-- An entry comparison is transitive on strict order. -/
theorem entryCmp_lt_trans {e : SortEntry} {a b c : LibraryItemObj}
    (h1 : entryCmp e a b = .lt) (h2 : entryCmp e b c = .lt) :
    entryCmp e a c = .lt := by
  unfold entryCmp at h1 h2 ⊢
  by_cases h : e.desc = true
  · simp only [h, if_true] at h1 h2 ⊢
    rw [orderingSwap_eq_lt] at h1 h2
    have h1' : natCompare (sortKeyString (e.key b)) (sortKeyString (e.key a)) = .lt := by
      rw [← natCompare_swap, h1]
      rfl
    have h2' : natCompare (sortKeyString (e.key c)) (sortKeyString (e.key b)) = .lt := by
      rw [← natCompare_swap, h2]
      rfl
    have h3 := natCompare_lt_trans h2' h1'
    rw [orderingSwap_eq_lt, ← natCompare_swap, h3]
    rfl
  · simp only [h, if_false] at h1 h2 ⊢
    rw [if_neg (by simp [h])] at h1 h2 ⊢
    exact natCompare_lt_trans h1 h2

/-- Items an entry deems equal extract keys with identical comparison
tokens, so either can stand for the other in that entry's comparisons. -/
theorem entryCmp_eq_subst {e : SortEntry} {a b : LibraryItemObj}
    (h : entryCmp e a b = .eq) (c : LibraryItemObj) :
    entryCmp e a c = entryCmp e b c := by
  unfold entryCmp at h ⊢
  by_cases hd : e.desc = true
  · simp only [hd, if_true] at h ⊢
    have : natCompare (sortKeyString (e.key a)) (sortKeyString (e.key b)) = .eq := by
      cases ho : natCompare (sortKeyString (e.key a)) (sortKeyString (e.key b)) <;>
        rw [ho] at h <;> first | rfl | exact absurd h (by decide)
    have hk := natCompare_eq_tokens this
    unfold natCompare
    rw [hk]
  · simp only [hd, if_false] at h ⊢
    rw [if_neg (by simp [hd])] at h ⊢
    rw [if_neg (by simp [hd])]
    have hk := natCompare_eq_tokens h
    unfold natCompare
    rw [hk]

/-- The composite comparator is antisymmetric under `swap`. -/
theorem chainCmp_swap (chain : List SortEntry) (a b : LibraryItemObj) :
    (chainCmp chain a b).swap = chainCmp chain b a := by
  induction chain with
  | nil => rfl
  | cons e es ih =>
    show ((entryCmp e a b).then (chainCmp es a b)).swap = _
    rw [orderingThen_swap, entryCmp_swap, ih]
    rfl

/-- Items the composite comparator deems equal can stand for each other in
composite comparisons. -/
theorem chainCmp_eq_subst {chain : List SortEntry} {a b : LibraryItemObj}
    (h : chainCmp chain a b = .eq) (c : LibraryItemObj) :
    chainCmp chain a c = chainCmp chain b c := by
  induction chain with
  | nil => rfl
  | cons e es ih =>
    rw [show chainCmp (e :: es) a b = (entryCmp e a b).then (chainCmp es a b) from rfl,
      Ordering.then_eq_eq] at h
    show (entryCmp e a c).then (chainCmp es a c) =
      (entryCmp e b c).then (chainCmp es b c)
    rw [entryCmp_eq_subst h.1 c, ih h.2]

/-- The composite comparator is transitive on strict order. -/
theorem chainCmp_lt_trans {chain : List SortEntry} {a b c : LibraryItemObj}
    (h1 : chainCmp chain a b = .lt) (h2 : chainCmp chain b c = .lt) :
    chainCmp chain a c = .lt := by
  induction chain with
  | nil => simp [chainCmp] at h1
  | cons e es ih =>
    rw [show chainCmp (e :: es) a b = (entryCmp e a b).then (chainCmp es a b) from rfl,
      Ordering.then_eq_lt] at h1
    rw [show chainCmp (e :: es) b c = (entryCmp e b c).then (chainCmp es b c) from rfl,
      Ordering.then_eq_lt] at h2
    show (entryCmp e a c).then (chainCmp es a c) = .lt
    rw [Ordering.then_eq_lt]
    rcases h1 with hab | ⟨hab, htab⟩
    · rcases h2 with hbc | ⟨hbc, htbc⟩
      · exact Or.inl (entryCmp_lt_trans hab hbc)
      · have hcb : entryCmp e c b = .eq := by
          rw [← entryCmp_swap, hbc]
          rfl
        have hsub := entryCmp_eq_subst hcb a
        refine Or.inl ?_
        rw [← entryCmp_swap e c a, hsub, entryCmp_swap e b a]
        exact hab
    · rcases h2 with hbc | ⟨hbc, htbc⟩
      · exact Or.inl (entryCmp_eq_subst hab c ▸ hbc)
      · refine Or.inr ⟨?_, ih htab htbc⟩
        rw [entryCmp_eq_subst hab c]
        exact hbc

/-- The induced "not after" relation is transitive. -/
theorem chainLe_trans (chain : List SortEntry) (a b c : LibraryItemObj)
    (h1 : chainLe chain a b = true) (h2 : chainLe chain b c = true) :
    chainLe chain a c = true := by
  unfold chainLe at h1 h2 ⊢
  cases hab : chainCmp chain a b with
  | gt =>
    rw [hab] at h1
    exact absurd h1 (by decide)
  | eq =>
    rw [chainCmp_eq_subst hab c]
    exact h2
  | lt =>
    cases hbc : chainCmp chain b c with
    | gt =>
      rw [hbc] at h2
      exact absurd h2 (by decide)
    | eq =>
      have hcb : chainCmp chain c b = .eq := by
        rw [← chainCmp_swap, hbc]
        rfl
      have hsub := chainCmp_eq_subst hcb a
      have hac : chainCmp chain a c = .lt := by
        rw [← chainCmp_swap chain c a, hsub, chainCmp_swap chain b a]
        exact hab
      rw [hac]
      rfl
    | lt =>
      rw [chainCmp_lt_trans hab hbc]
      rfl

/-- The induced "not after" relation is total. -/
theorem chainLe_total (chain : List SortEntry) (a b : LibraryItemObj) :
    (chainLe chain a b || chainLe chain b a) = true := by
  unfold chainLe
  cases hab : chainCmp chain a b with
  | lt => rfl
  | eq => rfl
  | gt =>
    have hba : chainCmp chain b a = .lt := by
      rw [← chainCmp_swap, hab]
      rfl
    simp only [hab, hba]
    decide

/-- `mergeSort` on a two-element list is one `merge` of singletons. -/
theorem mergeSort_pair {α : Type} (le : α → α → Bool) (a b : α) :
    [a, b].mergeSort le = if le a b then [a, b] else [b, a] := by
  rw [List.mergeSort]
  have h1 : (List.splitInTwo ⟨[a, b], rfl⟩).1.1 = [a] := by
    simp [List.splitInTwo, List.splitAt_eq]
  have h2 : (List.splitInTwo ⟨[a, b], rfl⟩).2.1 = [b] := by
    simp [List.splitInTwo, List.splitAt_eq]
  rw [h1, h2, List.mergeSort_singleton, List.mergeSort_singleton]
  by_cases h : le a b
  · simp [List.merge, h]
  · simp [List.merge, h]

/-! ### C8 — sort stability -/

/-- C8: the applied sort is stable — whenever two items compare equal under
the entire comparator chain, they appear in the output in the relative
order they had in the input (the earlier one still precedes the later
one). -/
theorem applySortChain_stable (chain : List SortEntry)
    (l1 l2 l3 : List LibraryItemObj) (a b : LibraryItemObj)
    (h : chainCmp chain a b = .eq) :
    List.Sublist [a, b] (applySortChain chain (l1 ++ a :: (l2 ++ b :: l3))) := by
  have hsub : List.Sublist [a, b] (l1 ++ a :: (l2 ++ b :: l3)) := by
    have hb : List.Sublist [b] (l2 ++ b :: l3) :=
      (List.Sublist.cons₂ b (List.nil_sublist l3)).trans
        (List.sublist_append_right l2 (b :: l3))
    have ha : List.Sublist [a, b] (a :: (l2 ++ b :: l3)) := List.Sublist.cons₂ a hb
    exact ha.trans (List.sublist_append_right l1 _)
  cases chain with
  | nil => exact hsub
  | cons e es =>
    have hle : chainLe (e :: es) a b = true := by
      unfold chainLe
      rw [h]
      rfl
    exact List.pair_sublist_mergeSort
      (fun x y z hxy hyz => chainLe_trans (e :: es) x y z hxy hyz)
      (fun x y => chainLe_total (e :: es) x y)
      hle hsub

/-- C8 witness: two books with the same title (equal keys under the
title-sort chain) keep their input order through the sort. -/
theorem applySortChain_stable_w :
    chainCmp (buildSortChain false exTitleCtx) exBook1 exBook3 = .eq ∧
    List.Sublist [exBook1, exBook3]
      (applySortChain (buildSortChain false exTitleCtx) [exBook1, exBook3]) :=
  ⟨by decide, applySortChain_stable (buildSortChain false exTitleCtx)
    [] [] [] exBook1 exBook3 (by decide)⟩

/-! ### C9 — author-sort secondary tie-break -/

/-- C9: when the library's media type is books and the requested sort field
name contains `"author"`, the built comparator chain ends with an appended
ascending tie-break whose key is the sort-friendly title of the item's
first (primary) series — or `null`, the lowest-ranking key, when the item
belongs to no series; consequently two concrete books by the same author in
different series compare, and sort, by their series' sort titles. -/
theorem author_secondary_tiebreak (noArt : Bool) (fs : Option String)
    (sd col : Bool) (sb : String)
    (h : containsSub "author".data sb.data = true) :
    (buildSortChain noArt ⟨fs, some sb, sd, col, "book"⟩).getLast? =
      some { desc := false, key := authorSecondaryKey } ∧
    (∀ li : LibraryItemObj, li.media.metadata.series = [] →
      authorSecondaryKey li = .null) ∧
    (∀ (li : LibraryItemObj) (s : SeriesRef) (rest : List SeriesRef),
      li.media.metadata.series = s :: rest →
      authorSecondaryKey li = .str s.sortTitle) ∧
    chainCmp (buildSortChain false exAuthorCtx) exBook1 exBook2 = .lt ∧
    natCompare exSeriesA.sortTitle exSeriesB.sortTitle = .lt ∧
    applySortChain (buildSortChain false exAuthorCtx) [exBook2, exBook1] =
      [exBook1, exBook2] := by
  refine ⟨?_, ?_, ?_, by decide, by decide, ?_⟩
  · have hcond : (("book" == "book") && containsSub "author".data sb.data) = true := by
      rw [h]
      decide
    unfold buildSortChain
    cases fs <;>
      simp [hcond, show containsSub ['a', 'u', 't', 'h', 'o', 'r'] sb.data = true from h,
        List.getLast?_concat]
  · intro li hser
    unfold authorSecondaryKey
    rw [hser]
  · intro li s rest hser
    unfold authorSecondaryKey
    rw [hser]
  · have hred : applySortChain (buildSortChain false exAuthorCtx) [exBook2, exBook1] =
        [exBook2, exBook1].mergeSort (chainLe (buildSortChain false exAuthorCtx)) := rfl
    rw [hred, mergeSort_pair,
      show chainLe (buildSortChain false exAuthorCtx) exBook2 exBook1 = false from by decide]
    rfl

/-- C9 witness: the tie-break theorem applied to the author-name sort
request. -/
theorem author_secondary_tiebreak_w :
    (buildSortChain false ⟨none, some "media.metadata.authorName", false, false,
        "book"⟩).getLast? = some { desc := false, key := authorSecondaryKey } ∧
    (∀ li : LibraryItemObj, li.media.metadata.series = [] →
      authorSecondaryKey li = .null) ∧
    (∀ (li : LibraryItemObj) (s : SeriesRef) (rest : List SeriesRef),
      li.media.metadata.series = s :: rest →
      authorSecondaryKey li = .str s.sortTitle) ∧
    chainCmp (buildSortChain false exAuthorCtx) exBook1 exBook2 = .lt ∧
    natCompare exSeriesA.sortTitle exSeriesB.sortTitle = .lt ∧
    applySortChain (buildSortChain false exAuthorCtx) [exBook2, exBook1] =
      [exBook1, exBook2] :=
  author_secondary_tiebreak false none false false "media.metadata.authorName"
    (by decide)

/-! ### C6 — search facet upserts -/

/-- Association-list lookup distributes over append. -/
theorem lookup_append {β : Type} (l1 l2 : List (String × β)) (i : String) :
    (l1 ++ l2).lookup i =
      match l1.lookup i with
      | some v => some v
      | none => l2.lookup i := by
  induction l1 with
  | nil => rfl
  | cons p t ih =>
    obtain ⟨k, v⟩ := p
    by_cases hk : i = k
    · subst hk
      rw [List.cons_append, List.lookup_cons, List.lookup_cons,
        show (i == i) = true from by simp]
    · rw [List.cons_append, List.lookup_cons, List.lookup_cons,
        show (i == k) = false from by simp [hk]]
      exact ih

/-- Looking up after a `numBooks` bump: the bumped key's aggregate gains
one, every other key is untouched. -/
theorem bumpAuthor_lookup (m : List (String × AuthorAgg)) (j i : String) :
    (bumpAuthor m j).lookup i =
      if i = j then
        (m.lookup i).map (fun agg => { agg with numBooks := agg.numBooks + 1 })
      else m.lookup i := by
  induction m with
  | nil =>
    by_cases hij : i = j <;> simp [bumpAuthor, hij]
  | cons p t ih =>
    obtain ⟨k, agg⟩ := p
    by_cases hkj : k = j
    · subst hkj
      rw [show bumpAuthor ((k, agg) :: t) k =
        (k, { agg with numBooks := agg.numBooks + 1 }) :: t from by simp [bumpAuthor]]
      by_cases hik : i = k
      · subst hik
        rw [List.lookup_cons, List.lookup_cons, show (i == i) = true from by simp,
          if_pos rfl]
        rfl
      · rw [List.lookup_cons, List.lookup_cons,
          show (i == k) = false from by simp [hik], if_neg hik]
    · rw [show bumpAuthor ((k, agg) :: t) j = (k, agg) :: bumpAuthor t j from by
        simp [bumpAuthor, hkj]]
      by_cases hik : i = k
      · subst hik
        rw [List.lookup_cons, List.lookup_cons, show (i == i) = true from by simp,
          if_neg hkj]
      · rw [List.lookup_cons, List.lookup_cons,
          show (i == k) = false from by simp [hik]]
        exact ih

/-- Looking up after one author-reference upsert: a fresh resolvable id is
inserted with `numBooks = 1`, a fresh unresolvable id leaves the map
unchanged, a known id is bumped; other keys are untouched. -/
theorem processAuthorRef_lookup (tbl : List AuthorObj)
    (m : List (String × AuthorAgg)) (au : IdRef) (i : String) :
    (processAuthorRef tbl m au).lookup i =
      if i = au.id then
        match m.lookup au.id with
        | some agg => some { agg with numBooks := agg.numBooks + 1 }
        | none =>
          match tbl.find? (fun a => a.id == au.id) with
          | some a => some ⟨a, 1⟩
          | none => none
      else m.lookup i := by
  unfold processAuthorRef
  cases hm : m.lookup au.id with
  | some agg =>
    rw [bumpAuthor_lookup]
    by_cases hi : i = au.id
    · subst hi
      rw [if_pos rfl, if_pos rfl, hm]
      rfl
    · rw [if_neg hi, if_neg hi]
  | none =>
    cases hf : tbl.find? (fun a => a.id == au.id) with
    | some a =>
      rw [lookup_append]
      by_cases hi : i = au.id
      · subst hi
        rw [hm, if_pos rfl]
        simp [List.lookup_cons]
      · rw [if_neg hi]
        cases hmi : m.lookup i with
        | some v => rfl
        | none =>
          rw [List.lookup_cons, show (i == au.id) = false from by simp [hi]]
          rfl
    | none =>
      by_cases hi : i = au.id
      · subst hi
        rw [if_pos rfl, hm]
      · rw [if_neg hi]

/-- Reference counting over a cons cell. -/
theorem countRefs_cons (r : IdRef) (rs : List IdRef) (i : String) :
    countRefs (r :: rs) i = countRefs rs i + (if r.id = i then 1 else 0) := by
  simp [countRefs, List.count_cons]

/-- Full characterization of the authors accumulator after folding a
reference list: an id already aggregated gains one `numBooks` per
occurrence, a resolvable fresh id ends at its occurrence count (absent when
it never occurs), an unresolvable id never enters the map. -/
theorem authorFold_lookup (tbl : List AuthorObj) (rs : List IdRef)
    (m : List (String × AuthorAgg)) (i : String) :
    (authorFold tbl m rs).lookup i =
      match m.lookup i, tbl.find? (fun a => a.id == i) with
      | some agg, _ => some { agg with numBooks := agg.numBooks + countRefs rs i }
      | none, some a =>
        if countRefs rs i = 0 then none else some ⟨a, countRefs rs i⟩
      | none, none => none := by
  induction rs generalizing m with
  | nil =>
    cases hm : m.lookup i with
    | some agg => simp [authorFold, hm, countRefs]
    | none =>
      cases hf : tbl.find? (fun a => a.id == i) with
      | some a => simp [authorFold, hm, hf, countRefs]
      | none => simp [authorFold, hm, hf]
  | cons r rs ih =>
    have hstep : authorFold tbl m (r :: rs) =
        authorFold tbl (processAuthorRef tbl m r) rs := rfl
    rw [hstep, ih, processAuthorRef_lookup]
    by_cases hi : i = r.id
    · subst hi
      rw [if_pos rfl, countRefs_cons, if_pos rfl]
      cases hm : m.lookup r.id with
      | some agg =>
        cases hf : tbl.find? (fun a => a.id == r.id) with
        | some a => simp [Nat.add_comm, Nat.add_assoc, Nat.add_left_comm]
        | none => simp [Nat.add_comm, Nat.add_assoc, Nat.add_left_comm]
      | none =>
        cases hf : tbl.find? (fun a => a.id == r.id) with
        | some a => simp [Nat.add_comm, Nat.add_assoc, Nat.add_left_comm]
        | none => simp
    · rw [if_neg hi, countRefs_cons, if_neg (fun e => hi e.symm)]
      simp

/-- One item's scan step changes the authors accumulator by folding exactly
that item's author references. -/
theorem searchStep_authorMatches (st : List SeriesObj) (tbl : List AuthorObj)
    (q : String) (acc : SearchAcc) (li : SearchItem) :
    (searchStep st tbl q acc li).authorMatches =
      authorFold tbl acc.authorMatches (li.searchQuery q).authors := by
  unfold searchStep
  cases hk : (li.searchQuery q).matchKey with
  | none => simp [hk, authorFold]
  | some mk => by_cases hmk : mk = "" <;> simp [hk, hmk, authorFold]

/-- The whole scan's authors accumulator is one fold over all author
references in scan order. -/
theorem foldl_searchStep_authorMatches (st : List SeriesObj)
    (tbl : List AuthorObj) (q : String) (items : List SearchItem) :
    ∀ acc : SearchAcc,
      (items.foldl (searchStep st tbl q) acc).authorMatches =
        authorFold tbl acc.authorMatches (allAuthorRefs q items) := by
  induction items with
  | nil =>
    intro acc
    simp [allAuthorRefs, authorFold]
  | cons li items ih =>
    intro acc
    rw [List.foldl_cons, ih, searchStep_authorMatches]
    unfold authorFold
    rw [show allAuthorRefs q (li :: items) =
      (li.searchQuery q).authors ++ allAuthorRefs q items from by
        simp [allAuthorRefs], List.foldl_append]

/-- The scan's authors accumulator, from the empty start. -/
theorem runSearchScan_authorMatches (st : List SeriesObj) (tbl : List AuthorObj)
    (q : String) (items : List SearchItem) :
    (runSearchScan st tbl q items).authorMatches =
      authorFold tbl [] (allAuthorRefs q items) :=
  foldl_searchStep_authorMatches st tbl q items SearchAcc.empty

/-- Appending a member book changes no key's presence in the series
accumulator. -/
theorem pushSeriesBook_lookup_isSome (m : List (String × SeriesAgg))
    (j b i : String) :
    ((pushSeriesBook m j b).lookup i).isSome = (m.lookup i).isSome := by
  induction m with
  | nil => rfl
  | cons p t ih =>
    obtain ⟨k, agg⟩ := p
    by_cases hkj : k = j
    · subst hkj
      rw [show pushSeriesBook ((k, agg) :: t) k b =
        (k, { agg with books := agg.books ++ [b] }) :: t from by simp [pushSeriesBook]]
      by_cases hik : i = k
      · subst hik
        rw [List.lookup_cons, List.lookup_cons, show (i == i) = true from by simp]
        rfl
      · rw [List.lookup_cons, List.lookup_cons,
          show (i == k) = false from by simp [hik]]
    · rw [show pushSeriesBook ((k, agg) :: t) j b =
        (k, agg) :: pushSeriesBook t j b from by simp [pushSeriesBook, hkj]]
      by_cases hik : i = k
      · subst hik
        rw [List.lookup_cons, List.lookup_cons, show (i == i) = true from by simp]
      · rw [List.lookup_cons, List.lookup_cons,
          show (i == k) = false from by simp [hik]]
        exact ih

/-- A key present after one series-reference upsert was present before, or
is the id of a canonical-table entry (an unresolvable id never enters). -/
theorem processSeriesRef_lookup_isSome (st : List SeriesObj) (liId : String)
    (m : List (String × SeriesAgg)) (se : IdRef) (i : String)
    (hP : ((processSeriesRef st liId m se).lookup i).isSome = true) :
    (m.lookup i).isSome = true ∨ ∃ s, s ∈ st ∧ s.id = i := by
  unfold processSeriesRef at hP
  cases hm : m.lookup se.id with
  | some agg =>
    rw [hm] at hP
    rw [pushSeriesBook_lookup_isSome] at hP
    exact Or.inl hP
  | none =>
    rw [hm] at hP
    cases hf : st.find? (fun s => s.id == se.id) with
    | some s =>
      rw [hf, lookup_append] at hP
      cases hmi : m.lookup i with
      | some v => exact Or.inl rfl
      | none =>
        rw [hmi] at hP
        by_cases hi : i = se.id
        · refine Or.inr ⟨s, List.mem_of_find?_eq_some hf, ?_⟩
          have hs := List.find?_some hf
          rw [beq_iff_eq] at hs
          rw [hs, hi]
        · rw [List.lookup_cons, show (i == se.id) = false from by simp [hi]] at hP
          simp at hP
    | none =>
      rw [hf] at hP
      exact Or.inl hP

/-- Folding series references preserves the invariant that every present
key resolves in the canonical table. -/
theorem seriesFold_lookup_isSome (st : List SeriesObj) (liId : String)
    (rs : List IdRef) :
    ∀ (m : List (String × SeriesAgg)) (i : String),
      (((rs.foldl (processSeriesRef st liId) m)).lookup i).isSome = true →
      (m.lookup i).isSome = true ∨ ∃ s, s ∈ st ∧ s.id = i := by
  induction rs with
  | nil =>
    intro m i h
    exact Or.inl h
  | cons r rs ih =>
    intro m i h
    rcases ih _ i h with h' | h'
    · exact processSeriesRef_lookup_isSome st liId m r i h'
    · exact Or.inr h'

/-- The item scan preserves the series-key invariant. -/
theorem foldl_searchStep_seriesInv (st : List SeriesObj) (tbl : List AuthorObj)
    (q : String) (items : List SearchItem) :
    ∀ (acc : SearchAcc) (i : String),
      (((items.foldl (searchStep st tbl q) acc)).seriesMatches.lookup i).isSome = true →
      (acc.seriesMatches.lookup i).isSome = true ∨ ∃ s, s ∈ st ∧ s.id = i := by
  induction items with
  | nil =>
    intro acc i h
    exact Or.inl h
  | cons li items ih =>
    intro acc i h
    rcases ih _ i h with h' | h'
    · have hsm : (searchStep st tbl q acc li).seriesMatches =
          (li.searchQuery q).series.foldl (processSeriesRef st li.id)
            acc.seriesMatches := by
        unfold searchStep
        cases hk : (li.searchQuery q).matchKey with
        | none => simp [hk]
        | some mk => by_cases hmk : mk = "" <;> simp [hk, hmk]
      rw [hsm] at h'
      exact seriesFold_lookup_isSome st li.id _ _ i h'
    · exact Or.inr h'

/-- C6: both author and series references are keyed by their durable id and
resolved against the canonical entity table — an id absent from the table
is silently skipped (it never enters the facet, and the total scan still
completes); for a resolvable author id, the aggregate is created at the
first occurrence with `numBooks = 1` and each later occurrence increments
it, so its final `numBooks` equals the occurrence count; concretely, items
matching authors A, B, A in scan order yield the authors facet `[A, B]`
with A's `numBooks = 2`, skipping an unresolvable author and series id
along the way. -/
theorem search_author_series_upsert :
    (∀ (st : List SeriesObj) (tbl : List AuthorObj) (q : String)
        (items : List SearchItem) (i : String),
      ((runSearchScan st tbl q items).authorMatches.lookup i).isSome = true →
      ∃ a, a ∈ tbl ∧ a.id = i) ∧
    (∀ (st : List SeriesObj) (tbl : List AuthorObj) (q : String)
        (items : List SearchItem) (i : String),
      ((runSearchScan st tbl q items).seriesMatches.lookup i).isSome = true →
      ∃ s, s ∈ st ∧ s.id = i) ∧
    (∀ (st : List SeriesObj) (tbl : List AuthorObj) (q : String)
        (items : List SearchItem) (i : String) (a : AuthorObj),
      tbl.find? (fun x => x.id == i) = some a →
      (runSearchScan st tbl q items).authorMatches.lookup i =
        (if countRefs (allAuthorRefs q items) i = 0 then none
         else some ⟨a, countRefs (allAuthorRefs q items) i⟩)) ∧
    (runSearchScan exSeriesTable exAuthorTable "x" exSearchItems).authorMatches =
      [("au_A", ⟨exAuthorA, 2⟩), ("au_B", ⟨exAuthorB, 1⟩)] ∧
    (runSearchScan exSeriesTable exAuthorTable "x" exSearchItems).seriesMatches =
      [("se_S", ⟨⟨"se_S", "Series S"⟩, ["li_2"]⟩)] := by
  refine ⟨?_, ?_, ?_, by decide, by decide⟩
  · intro st tbl q items i h
    rw [runSearchScan_authorMatches, authorFold_lookup] at h
    rw [show List.lookup i ([] : List (String × AuthorAgg)) = none from rfl] at h
    cases hf : tbl.find? (fun a => a.id == i) with
    | some a =>
      have ha := List.find?_some hf
      rw [beq_iff_eq] at ha
      exact ⟨a, List.mem_of_find?_eq_some hf, ha⟩
    | none =>
      rw [hf] at h
      simp at h
  · intro st tbl q items i h
    have := foldl_searchStep_seriesInv st tbl q items SearchAcc.empty i h
    rcases this with h' | h'
    · simp [SearchAcc.empty] at h'
    · exact h'
  · intro st tbl q items i a hf
    rw [runSearchScan_authorMatches, authorFold_lookup,
      show List.lookup i ([] : List (String × AuthorAgg)) = none from rfl, hf]
